import Mathlib

/-!
Shallow embedding of the `toobz` Go package (src/unpack.go): an unpacker for
EFI zboot images.  Bytes are naturals, buffers are `List Nat`, the Go
`uint32` fields are naturals reduced modulo `2^32` where the code's
arithmetic wraps, and fallible operations return `Except`.

Go compares magic byte sequences by comparing their `fmt.Sprintf("%v", ...)`
renderings; on byte slices that rendering is injective, so the embedding
compares the byte lists directly and errors carry the raw byte lists instead
of their decimal renderings.
-/

set_option maxRecDepth 100000

deriving instance DecidableEq for Except

namespace Toobz

/-- A byte: a natural number, `< 256` wherever it comes from a buffer. -/
abbrev Byte := Nat

/-- `ARM64MagicOffset`: the offset into the decompressed payload where the
architecture magic value is looked up (src/unpack.go line 15). -/
def ARM64MagicOffset : Nat := 56

/-- `Datum` mirrors the Go struct of the same name: a named magic byte
pattern given either literally (`raw`), or as a printable payload with
optional zero padding and an optional extra trailing byte. -/
structure Datum where
  payload : String
  padding : Nat
  addByte : Byte
  raw : List Byte
  deriving DecidableEq

/-- `toUint8Padded` (src/unpack.go lines 98-109): the bytes of the string,
zero-extended until the requested width is reached. -/
def toUint8Padded (s : String) (width : Nat) : List Byte :=
  let r := s.toList.map (fun c => c.toNat % 256)
  r ++ List.replicate (width - r.length) 0

/-- `Datum.Value` returns the raw string name of the data item. -/
def Datum.Value (d : Datum) : String := d.payload

/-- `Datum.Data` (src/unpack.go lines 78-87): the canonical byte sequence of
the datum — the literal bytes when present, otherwise the padded payload
with the optional extra byte appended. -/
def Datum.Data (d : Datum) : List Byte :=
  if d.raw.length > 0 then d.raw
  else
    let b := toUint8Padded d.payload d.padding
    if d.addByte > 0 then b ++ [d.addByte] else b

/-- `LinuxMagic` registry datum (src/unpack.go line 22). -/
def LinuxMagic : Datum := ⟨"Linux", 0, 0, [205, 35, 130, 129]⟩

/-- `ARM` registry datum (src/unpack.go line 24). -/
def ARM : Datum := ⟨"ARM", 0, 100, []⟩

/-- `RISC` registry datum (src/unpack.go line 26). -/
def RISC : Datum := ⟨"RSC", 0, 5, []⟩

/-- `Gzip` registry datum (src/unpack.go line 28). -/
def Gzip : Datum := ⟨"gzip", 32, 0, []⟩

/-- `MSDOSMagic` registry datum (src/unpack.go line 30). -/
def MSDOSMagic : Datum := ⟨"MZ", 0, 0, []⟩

/-- `ZImg` registry datum (src/unpack.go line 32). -/
def ZImg : Datum := ⟨"zimg", 0, 0, []⟩

/-- The error values the Go code can return, one constructor per distinct
error site.  `contentMismatch` models the `errors.Join(ErrIsInvalidContent,
...)` value of `check.verify` and carries the datum name together with the
observed and expected byte sequences; `gzipErr` models an error surfaced
verbatim from the `compress/gzip` library. -/
inductive GoError where
  /-- `io.EOF`: `binary.Read` saw no bytes at all. -/
  | eof : GoError
  /-- `io.ErrUnexpectedEOF`: `binary.Read` ran out of bytes mid-header. -/
  | unexpectedEOF : GoError
  /-- a failed `check.verify` (src/unpack.go line 93). -/
  | contentMismatch : String → List Byte → List Byte → GoError
  /-- "payload size/offset is zero" (line 141). -/
  | payloadZero : GoError
  /-- "invalid offset/payload, beyond size" (line 145). -/
  | payloadBeyondSize : GoError
  /-- `io.EOF` surfaced from `bytes.Reader.ReadAt` reading short (line 150). -/
  | readAtEOF : GoError
  /-- "invalid seek, zero" (line 155). -/
  | zeroSeek : GoError
  /-- "no body" (line 169). -/
  | noBody : GoError
  /-- "unknown compression type" carrying the tag bytes (line 192). -/
  | unknownCompressionType : List Byte → GoError
  /-- "invalid response payload: n" (line 197). -/
  | invalidResponsePayload : Nat → GoError
  /-- the Go slice expression `sub[56:60]` exceeds the payload's length
  (possible when `56 <= len(sub) < 60`): Go panics when the slice's capacity
  is below 60 and otherwise reads bytes beyond the payload; neither outcome
  is a function of the payload bytes, so the embedding marks it with this
  distinguished outcome. -/
  | sliceOutOfRange : GoError
  /-- "unknown payload type" carrying the four observed bytes (line 212). -/
  | unknownPayloadType : List Byte → GoError
  /-- an error surfaced verbatim from the gzip decompressor (line 186). -/
  | gzipErr : String → GoError
  deriving DecidableEq

/-- `check` (src/unpack.go lines 43-46): an observed byte sequence paired
with the datum it is expected to match. -/
structure check where
  left : List Byte
  right : Datum

/-- `check.verify` (src/unpack.go lines 89-96): `none` when the observed
bytes render equal to the datum's canonical bytes, otherwise the mismatch
error.  (Go compares the `%v` renderings, which agree exactly when the byte
sequences agree.) -/
def check.verify (c : check) : Option GoError :=
  if c.left = c.right.Data then none
  else some (.contentMismatch c.right.Value c.left c.right.Data)

/-- `Header` (src/unpack.go lines 53-63): the fixed little-endian zboot
header.  Fixed-width byte arrays are byte lists of that width; `uint32`
fields are naturals below `2^32`. -/
structure Header where
  MSDOSMagic : List Byte
  Reserved0 : List Byte
  ZImg : List Byte
  PayloadOffset : Nat
  PayloadSize : Nat
  Reserved1 : List Byte
  CompressionType : List Byte
  LinuxMagic : List Byte
  PEHeaderOffset : Nat
  deriving DecidableEq

/-- `Unpacker` (src/unpack.go lines 48-51): the decode options. -/
structure Unpacker where
  Decompress : Bool
  ParseBody : Bool
  deriving DecidableEq

/-- `BootInfo` (src/unpack.go lines 65-69): decoded header, optional body
(empty when body parsing was not requested — Go's nil slice), and the
options that produced it. -/
structure BootInfo where
  Header : Header
  body : List Byte
  unpacker : Unpacker
  deriving DecidableEq

/-- The contiguous byte range `buf[off : off+n]` of a buffer (clipped at the
buffer's end, as `List.drop`/`List.take` clip). -/
def slice (buf : List Byte) (off n : Nat) : List Byte :=
  (buf.drop off).take n

/-- The little-endian `uint32` stored at offset `off` of the buffer
(out-of-range bytes read as 0; callers guarantee the range is in bounds). -/
def le32At (buf : List Byte) (off : Nat) : Nat :=
  buf.getD off 0 + 256 * buf.getD (off + 1) 0 +
    256 ^ 2 * buf.getD (off + 2) 0 + 256 ^ 3 * buf.getD (off + 3) 0

/-- The encoded size of `Header`: 2+2+4+4+4+8+32+4+4 = 64 bytes, the number
of bytes `binary.Read` consumes. -/
def headerLen : Nat := 64

/-- Field-by-field decoding of the 64 header bytes at the front of the
buffer, little-endian and in declaration order, exactly as
`binary.Read(r, binary.LittleEndian, &hdr)` lays the struct out. -/
def parseHeader (buf : List Byte) : Header :=
  ⟨slice buf 0 2,      -- MSDOSMagic
   slice buf 2 2,      -- Reserved0
   slice buf 4 4,      -- ZImg
   le32At buf 8,       -- PayloadOffset
   le32At buf 12,      -- PayloadSize
   slice buf 16 8,     -- Reserved1
   slice buf 24 32,    -- CompressionType
   slice buf 56 4,     -- LinuxMagic
   le32At buf 60⟩      -- PEHeaderOffset

/-- `Unpacker.ReadInfo` (src/unpack.go lines 121-159) on a `bytes.Reader`
over `buf`.  The nil-reader branch is not representable (a list is never a
nil pointer).  `binary.Read` yields `io.EOF` on an empty buffer and
`io.ErrUnexpectedEOF` on a short one; the three magic checks run in the
code's order (MSDOSMagic, LinuxMagic, ZImg); the offset/size sum is the Go
`uint32` addition, wrapping modulo `2^32`, and is compared against
`r.Len()`, the bytes remaining after the 64-byte header was consumed;
`bytes.Reader.ReadAt` reads at an absolute offset into the whole buffer and
returns `io.EOF` when it cannot deliver all requested bytes. -/
def Unpacker.ReadInfo (u : Unpacker) (buf : List Byte) : Except GoError BootInfo :=
  if buf.length = 0 then .error .eof
  else if buf.length < headerLen then .error .unexpectedEOF
  else
    let hdr := parseHeader buf
    match (check.mk hdr.MSDOSMagic MSDOSMagic).verify with
    | some e => .error e
    | none =>
      match (check.mk hdr.LinuxMagic LinuxMagic).verify with
      | some e => .error e
      | none =>
        match (check.mk hdr.ZImg ZImg).verify with
        | some e => .error e
        | none =>
          if hdr.PayloadOffset = 0 ∨ hdr.PayloadSize = 0 then .error .payloadZero
          else
            let size := buf.length - headerLen
            if (hdr.PayloadOffset + hdr.PayloadSize) % 2 ^ 32 > size then
              .error .payloadBeyondSize
            else if u.ParseBody then
              if hdr.PayloadOffset + hdr.PayloadSize > buf.length then .error .readAtEOF
              else
                let sub := slice buf hdr.PayloadOffset hdr.PayloadSize
                if hdr.PayloadSize = 0 then .error .zeroSeek
                else .ok ⟨hdr, sub, u⟩
            else .ok ⟨hdr, [], u⟩

/-- `BootInfo.Body` (src/unpack.go lines 162-164). -/
def BootInfo.Body (info : BootInfo) : List Byte := info.body

/-- The architecture-sniffing tail of `BootInfo.Write` (src/unpack.go lines
195-213): guard the payload length against `ARM64MagicOffset`, slice the
four magic bytes, and compare them against `ARM` then `RISC` with
`check.verify`.  A payload of 56-59 bytes passes the guard but makes the Go
slice `sub[56:60]` exceed the payload's length — see
`GoError.sliceOutOfRange`. -/
def archSniff (sub : List Byte) : Except GoError (List Byte) :=
  if sub.length < ARM64MagicOffset then .error (.invalidResponsePayload sub.length)
  else if sub.length < ARM64MagicOffset + 4 then .error .sliceOutOfRange
  else
    let val := slice sub ARM64MagicOffset 4
    if (check.mk val ARM).verify = none then .ok val
    else if (check.mk val RISC).verify = none then .ok val
    else .error (.unknownPayloadType val)

/-- `BootInfo.Write` (src/unpack.go lines 167-217), parameterised by the
gzip decompressor (the external `compress/gzip` library), whose failures the
code surfaces verbatim (wrapped here into `GoError.gzipErr`).  The result is
the list of byte chunks passed to the output sink's `Write` together with
the returned error: every early failure returns before the single
`w.Write(sub)` call, so it writes nothing.  The decompressor table holds the
single registered entry `(Gzip.Data, gunzip)`; its tag comparison renders
both byte sequences with `%v`, which agrees exactly with byte-list
equality. -/
def BootInfo.Write (gunzip : List Byte → Except String (List Byte))
    (info : BootInfo) : List (List Byte) × Option GoError :=
  if info.body.length = 0 then ([], some .noBody)
  else
    if info.unpacker.Decompress then
      if info.Header.CompressionType = Gzip.Data then
        match gunzip info.body with
        | .error msg => ([], some (.gzipErr msg))
        | .ok d =>
          match archSniff d with
          | .error e => ([], some e)
          | .ok _ => ([d], none)
      else ([], some (.unknownCompressionType info.Header.CompressionType))
    else ([info.body], none)

/-- The four little-endian bytes of a `uint32` value, for building test
buffers. -/
def le32Bytes (n : Nat) : List Byte :=
  [n % 256, n / 256 % 256, n / 256 ^ 2 % 256, n / 256 ^ 3 % 256]

/-- Builds a 64-byte header (valid "MZ", "zimg" and Linux magics unless the
arguments say otherwise) followed by `extra` payload bytes. -/
def mkBuf (res0 : List Byte) (off sz : Nat) (comp : List Byte)
    (linux : List Byte) (extra : List Byte) : List Byte :=
  [77, 90] ++ res0 ++ [122, 105, 109, 103] ++ le32Bytes off ++ le32Bytes sz ++
    List.replicate 8 0 ++ comp ++ linux ++ [0, 0, 0, 0] ++ extra

/-- The canonical 32-byte gzip compression tag for test buffers. -/
def gzipTag : List Byte := [103, 122, 105, 112] ++ List.replicate 28 0

/-- The canonical 4-byte Linux magic for test buffers. -/
def linuxTag : List Byte := [205, 35, 130, 129]

/-- A concrete 64-byte buffer whose header is valid except that
`PayloadOffset = 2^32 - 1` and `PayloadSize = 1`: the Go `uint32` sum wraps
to `0`. -/
def wrapBuf : List Byte := mkBuf [0, 0] (2 ^ 32 - 1) 1 gzipTag linuxTag []

/-- A concrete 130-byte buffer with `PayloadOffset = 70`, `PayloadSize = 60`:
the exact sum `130` equals the buffer length, yet the code compares it
against the 66 bytes remaining after the header. -/
def remBuf : List Byte := mkBuf [0, 0] 70 60 gzipTag linuxTag (List.replicate 66 7)

/-- A concrete buffer with a valid "MZ" magic but wrong zimg tag and wrong
Linux magic. -/
def badTagsBuf : List Byte :=
  [77, 90, 0, 0, 9, 9, 9, 9] ++ le32Bytes 1 ++ le32Bytes 1 ++
    List.replicate 8 0 ++ gzipTag ++ [0, 0, 0, 0] ++ [0, 0, 0, 0] ++ [1]

/-- `check.verify` succeeds exactly on byte-sequence equality. -/
theorem check_verify_none {l : List Byte} {d : Datum} (h : l = d.Data) :
    (check.mk l d).verify = none := by
  simp [check.verify, h]

/-- `check.verify` fails with the mismatch error on inequality. -/
theorem check_verify_some {l : List Byte} {d : Datum} (h : ¬ l = d.Data) :
    (check.mk l d).verify = some (.contentMismatch d.Value l d.Data) := by
  simp [check.verify, h]

/-- C7: the registry datums produce exactly the canonical byte sequences —
`ARM.Data = [65,82,77,100]`, `MSDOSMagic.Data = [77,90]`, `Gzip.Data` is
`[103,122,105,112]` followed by 28 zero bytes (32 bytes in total), and
`LinuxMagic.Data = [205,35,130,129]`.  Each `Data` is a pure function of the
datum, hence deterministic. -/
theorem datum_canonical_bytes :
    ARM.Data = [65, 82, 77, 100] ∧
    MSDOSMagic.Data = [77, 90] ∧
    Gzip.Data = [103, 122, 105, 112] ++ List.replicate 28 0 ∧
    Gzip.Data.length = 32 ∧
    LinuxMagic.Data = [205, 35, 130, 129] := by decide

/-- C5: decoding any buffer shorter than the 64-byte header fails with a
truncated-input error (`io.EOF` when empty, `io.ErrUnexpectedEOF`
otherwise); no `BootInfo` is produced, and the embedding's decoder is a
total function that never inspects bytes past the buffer. -/
theorem readInfo_short_buffer_truncated (u : Unpacker) (buf : List Byte)
    (h : buf.length < headerLen) :
    u.ReadInfo buf = .error GoError.eof ∨
      u.ReadInfo buf = .error GoError.unexpectedEOF := by
  unfold Unpacker.ReadInfo
  by_cases h0 : buf.length = 0
  · left
    simp [h0]
  · right
    simp [h0, h]

/-- Witness for C5 at the concrete 3-byte buffer `[1, 2, 3]`. -/
theorem readInfo_short_buffer_truncated_witness :
    (Unpacker.mk false false).ReadInfo [1, 2, 3] = .error GoError.eof ∨
      (Unpacker.mk false false).ReadInfo [1, 2, 3] = .error GoError.unexpectedEOF :=
  readInfo_short_buffer_truncated (Unpacker.mk false false) [1, 2, 3] (by decide)

/-- C1 (evaluation at the failing inputs): the code's bounds check adds the
two `uint32` fields with wraparound and compares against the bytes remaining
after the header, not the exact sum against the buffer length.  On `wrapBuf`
(offset `2^32 - 1`, size `1`, exact sum `2^32` far beyond the 64-byte
buffer) the sum wraps to `0` and decoding succeeds; on `remBuf` (exact sum
`130` equal to the buffer length) decoding is rejected with the bounds
error. -/
theorem readInfo_bounds_check_wraps :
    (Unpacker.mk false false).ReadInfo wrapBuf =
      .ok ⟨parseHeader wrapBuf, [], Unpacker.mk false false⟩ ∧
    (parseHeader wrapBuf).PayloadOffset + (parseHeader wrapBuf).PayloadSize >
      wrapBuf.length ∧
    (Unpacker.mk false false).ReadInfo remBuf = .error GoError.payloadBeyondSize ∧
    (parseHeader remBuf).PayloadOffset + (parseHeader remBuf).PayloadSize ≤
      remBuf.length := by decide

/-- C4 (evaluation at the failing input): the architecture sniff guards the
payload length only against `ARM64MagicOffset = 56`, yet reads the four
bytes `sub[56:60]`.  A 56-byte decompressed payload passes the guard while
the four-byte read extends past the payload's length (in Go: a panic when
the slice capacity is below 60, otherwise bytes beyond the payload);
payloads shorter than 56 bytes do fail with the length error as claimed. -/
theorem archSniff_guard_gap :
    ¬ ((List.replicate 56 0 : List Byte).length < ARM64MagicOffset) ∧
    ARM64MagicOffset + 4 > (List.replicate 56 0 : List Byte).length ∧
    archSniff (List.replicate 56 0) = .error GoError.sliceOutOfRange ∧
    archSniff (List.replicate 55 0) = .error (GoError.invalidResponsePayload 55) := by
  decide

/-- C8: on any buffer long enough for the header whose three magic fields
are valid, a zero `PayloadOffset` or a zero `PayloadSize` (or both) makes
decoding fail with the zero-bounds error, and no `BootInfo` is produced. -/
theorem readInfo_zero_offset_or_size (u : Unpacker) (buf : List Byte)
    (hlen : headerLen ≤ buf.length)
    (hmz : (parseHeader buf).MSDOSMagic = MSDOSMagic.Data)
    (hlx : (parseHeader buf).LinuxMagic = LinuxMagic.Data)
    (hzi : (parseHeader buf).ZImg = ZImg.Data)
    (hz : (parseHeader buf).PayloadOffset = 0 ∨ (parseHeader buf).PayloadSize = 0) :
    u.ReadInfo buf = .error GoError.payloadZero := by
  have h0 : ¬ buf.length = 0 := by
    unfold headerLen at hlen
    omega
  have h1 : ¬ buf.length < headerLen := by
    unfold headerLen at hlen ⊢
    omega
  simp [Unpacker.ReadInfo, h0, h1, check_verify_none hmz, check_verify_none hlx,
    check_verify_none hzi, hz]

/-- Witness for C8 at a concrete valid-magic buffer with
`PayloadOffset = 0` and `PayloadSize = 3`. -/
theorem readInfo_zero_offset_or_size_witness :
    (Unpacker.mk false false).ReadInfo
        (mkBuf [0, 0] 0 3 gzipTag linuxTag [1, 2, 3]) =
      .error GoError.payloadZero :=
  readInfo_zero_offset_or_size (Unpacker.mk false false)
    (mkBuf [0, 0] 0 3 gzipTag linuxTag [1, 2, 3])
    (by decide) (by decide) (by decide) (by decide) (Or.inl (by decide))

/-- C3 (counterexample): on `badTagsBuf` the DOS magic is the valid "MZ"
while both the zimg tag and the Linux magic are wrong, yet decoding reports
the mismatch of the Linux-magic field, not of the zimg field: the code
checks MSDOSMagic, then LinuxMagic, then ZImg. -/
theorem readInfo_linux_reported_not_zimg :
    (parseHeader badTagsBuf).MSDOSMagic = MSDOSMagic.Data ∧
    ¬ (parseHeader badTagsBuf).ZImg = ZImg.Data ∧
    ¬ (parseHeader badTagsBuf).LinuxMagic = LinuxMagic.Data ∧
    (Unpacker.mk false false).ReadInfo badTagsBuf =
      .error (GoError.contentMismatch "Linux" [0, 0, 0, 0] [205, 35, 130, 129]) := by
  decide

/-- C3 (amended): the magic fields are validated in the order DOS-magic,
then Linux magic, then zimg tag; on any header-length buffer whose DOS-magic
bytes are "MZ" but whose Linux-magic bytes are wrong, validation fails with
the content mismatch naming the Linux field — regardless of the zimg tag, so
in particular when the zimg tag is also wrong. -/
theorem readInfo_magic_check_order (u : Unpacker) (buf : List Byte)
    (hlen : headerLen ≤ buf.length)
    (hmz : (parseHeader buf).MSDOSMagic = MSDOSMagic.Data)
    (hlx : ¬ (parseHeader buf).LinuxMagic = LinuxMagic.Data) :
    u.ReadInfo buf =
      .error (GoError.contentMismatch "Linux" (parseHeader buf).LinuxMagic
        LinuxMagic.Data) := by
  have h0 : ¬ buf.length = 0 := by
    unfold headerLen at hlen
    omega
  have h1 : ¬ buf.length < headerLen := by
    unfold headerLen at hlen ⊢
    omega
  simp only [Unpacker.ReadInfo, if_neg h0, if_neg h1, check_verify_none hmz,
    check_verify_some hlx]
  rfl

/-- Witness for C3's amended theorem at the concrete buffer `badTagsBuf`. -/
theorem readInfo_magic_check_order_witness :
    (Unpacker.mk false false).ReadInfo badTagsBuf =
      .error (GoError.contentMismatch "Linux" [0, 0, 0, 0] [205, 35, 130, 129]) :=
  (readInfo_magic_check_order (Unpacker.mk false false) badTagsBuf
    (by decide) (by decide) (by decide)).trans (by decide)

/-- Indexing a slice: positions below the window read the buffer shifted by
the window's offset. -/
theorem slice_getElem? (buf : List Byte) (off n i : Nat) :
    (slice buf off n)[i]? = if i < n then buf[off + i]? else none := by
  unfold slice
  rw [List.getElem?_take, List.getElem?_drop]

/-- `getD` on a slice, inside the window. -/
theorem slice_getD (buf : List Byte) (off n i : Nat) (h : i < n) :
    (slice buf off n).getD i 0 = buf.getD (off + i) 0 := by
  rw [List.getD_eq_getElem?_getD, List.getD_eq_getElem?_getD, slice_getElem?, if_pos h]

/-- A slice whose window fits inside the buffer has the window's length. -/
theorem slice_length (buf : List Byte) (off n : Nat) (h : off + n ≤ buf.length) :
    (slice buf off n).length = n := by
  unfold slice
  rw [List.length_take, List.length_drop]
  omega

/-- Inversion of a successful decode: the returned header is the parsed one,
the options are recorded unchanged, and when body parsing was requested the
payload window lies inside the buffer and the body is exactly that
window. -/
theorem readInfo_ok_inversion (u : Unpacker) (buf : List Byte) (info : BootInfo)
    (h : u.ReadInfo buf = .ok info) :
    info.Header = parseHeader buf ∧ info.unpacker = u ∧
    (u.ParseBody = true →
      info.Header.PayloadOffset + info.Header.PayloadSize ≤ buf.length ∧
      info.body = slice buf info.Header.PayloadOffset info.Header.PayloadSize) ∧
    (u.ParseBody = false → info.body = []) := by
  simp only [Unpacker.ReadInfo] at h
  repeat' split at h
  all_goals first
    | exact Except.noConfusion h
    | (injection h with h2
       subst h2
       dsimp only
       refine ⟨rfl, rfl, fun hp => ?_, fun hq => ?_⟩)
  all_goals try rfl
  all_goals simp_all

/-- C2: whenever decode with body extraction requested succeeds, the
extracted body is exactly the byte range
`[PayloadOffset, PayloadOffset + PayloadSize)` of the original input buffer:
its length is `PayloadSize` and each of its bytes equals the source buffer's
byte at the corresponding position. -/
theorem readInfo_body_is_payload_range (u : Unpacker) (buf : List Byte)
    (info : BootInfo) (hp : u.ParseBody = true) (h : u.ReadInfo buf = .ok info) :
    info.body = slice buf info.Header.PayloadOffset info.Header.PayloadSize ∧
    info.body.length = info.Header.PayloadSize ∧
    ∀ i, i < info.Header.PayloadSize →
      info.body.getD i 0 = buf.getD (info.Header.PayloadOffset + i) 0 := by
  obtain ⟨hh, hu, himp, _⟩ := readInfo_ok_inversion u buf info h
  obtain ⟨hb, hbody⟩ := himp hp
  refine ⟨hbody, ?_, ?_⟩
  · rw [hbody]
    exact slice_length buf _ _ hb
  · intro i hi
    rw [hbody]
    exact slice_getD buf _ _ i hi

/-- Witness for C2: a 164-byte buffer whose payload window is `[64, 100)`,
wholly inside the appended payload bytes. -/
theorem readInfo_body_is_payload_range_witness :
    (Unpacker.mk false true).ReadInfo
        (mkBuf [0, 0] 64 36 gzipTag linuxTag (List.replicate 100 7)) =
      .ok ⟨parseHeader (mkBuf [0, 0] 64 36 gzipTag linuxTag (List.replicate 100 7)),
        List.replicate 36 7, Unpacker.mk false true⟩ ∧
    (List.replicate 36 7 : List Byte).length = 36 := by
  constructor
  · decide
  · have := readInfo_body_is_payload_range (Unpacker.mk false true)
      (mkBuf [0, 0] 64 36 gzipTag linuxTag (List.replicate 100 7))
      ⟨parseHeader (mkBuf [0, 0] 64 36 gzipTag linuxTag (List.replicate 100 7)),
        List.replicate 36 7, Unpacker.mk false true⟩ rfl (by decide)
    exact this.2.1.trans (by decide)

/-- The architecture sniff only fails with its own three errors, never with
a compression-type error. -/
theorem archSniff_error_not_compression (sub t : List Byte) :
    ¬ archSniff sub = .error (GoError.unknownCompressionType t) := by
  simp only [archSniff]
  split_ifs <;> simp

/-- C6: with a non-empty body and decompression requested, `Write` fails
with the unknown-compression error carrying the raw tag bytes exactly when
the 32-byte compression-type field differs byte-for-byte (padding included)
from the canonical gzip tag; in that case nothing at all is passed to the
output sink. -/
theorem write_unknown_compression (gunzip : List Byte → Except String (List Byte))
    (info : BootInfo) (hb : ¬ info.body.length = 0)
    (hd : info.unpacker.Decompress = true) :
    ((BootInfo.Write gunzip info).2 =
        some (GoError.unknownCompressionType info.Header.CompressionType) ↔
      ¬ info.Header.CompressionType = Gzip.Data) ∧
    (¬ info.Header.CompressionType = Gzip.Data →
      BootInfo.Write gunzip info =
        ([], some (GoError.unknownCompressionType info.Header.CompressionType))) := by
  have hb2 : ¬ info.body = [] := by simpa using hb
  by_cases hc : info.Header.CompressionType = Gzip.Data
  · refine ⟨⟨fun he => ?_, fun hcc => absurd hc hcc⟩, fun hcc => absurd hc hcc⟩
    exfalso
    simp [BootInfo.Write, hb2, hd, hc] at he
    cases hg : gunzip info.body with
    | error msg =>
      simp [hg] at he
    | ok d =>
      simp only [hg] at he
      cases ha : archSniff d with
      | error e =>
        simp only [ha] at he
        simp at he
        exact archSniff_error_not_compression d info.Header.CompressionType
          (by rw [ha, he, hc])
      | ok v =>
        simp only [ha] at he
        simp at he
  · constructor
    · simp [BootInfo.Write, hb2, hd, hc]
    · intro hcc
      simp [BootInfo.Write, hb2, hd, hc]

/-- A `BootInfo` with an all-zero 32-byte compression tag, a non-empty body
and decompression requested. -/
def zeroTagInfo : BootInfo :=
  ⟨⟨[77, 90], [0, 0], [122, 105, 109, 103], 1, 2, List.replicate 8 0,
    List.replicate 32 0, linuxTag, 0⟩, [5, 6], ⟨true, true⟩⟩

/-- Witness for C6: the all-zero tag is rejected with the
unknown-compression error and nothing is written. -/
theorem write_unknown_compression_witness :
    BootInfo.Write (fun _ => Except.ok []) zeroTagInfo =
      ([], some (GoError.unknownCompressionType (List.replicate 32 0))) :=
  ((write_unknown_compression (fun _ => Except.ok []) zeroTagInfo
    (by decide) rfl).2 (by decide)).trans (by decide)

/-- C9: with a non-empty body and decompression not requested, `Write`
makes exactly one write call to the sink, passing the stored body bytes
unmodified, and returns no error.  The result does not depend on the
decompressor argument at all, so no decompression and no architecture
sniffing takes place. -/
theorem write_raw_body (gunzip : List Byte → Except String (List Byte))
    (info : BootInfo) (hb : ¬ info.body.length = 0)
    (hd : info.unpacker.Decompress = false) :
    BootInfo.Write gunzip info = ([info.body], none) := by
  have hb2 : ¬ info.body = [] := by simpa using hb
  simp [BootInfo.Write, hb2, hd]

/-- A `BootInfo` with a non-empty body and decompression not requested. -/
def rawInfo : BootInfo :=
  ⟨⟨[77, 90], [0, 0], [122, 105, 109, 103], 1, 2, List.replicate 8 0,
    gzipTag, linuxTag, 0⟩, [5, 6], ⟨false, true⟩⟩

/-- Witness for C9 at a concrete `BootInfo` with body `[5, 6]`. -/
theorem write_raw_body_witness :
    BootInfo.Write (fun _ => Except.ok []) rawInfo = ([[5, 6]], none) :=
  (write_raw_body (fun _ => Except.ok []) rawInfo (by decide) rfl).trans (by decide)

/-- The byte offsets of the header regions the validator never checks:
the 2-byte reserved field (offsets 2-3), the 8-byte reserved field
(offsets 16-23) and the PE-header offset (offsets 60-63). -/
def uncheckedOffsets : List Nat :=
  [2, 3] ++ (List.range 8).map (fun i => 16 + i) ++ [60, 61, 62, 63]

/-- Two equal-length buffers that agree at every in-range position outside
the unchecked header regions. -/
def agreesOutsideUnchecked (b1 b2 : List Byte) : Prop :=
  b1.length = b2.length ∧
    ∀ i, i < b1.length → ¬ i ∈ uncheckedOffsets → b1.getD i 0 = b2.getD i 0

instance (b1 b2 : List Byte) : Decidable (agreesOutsideUnchecked b1 b2) := by
  unfold agreesOutsideUnchecked
  exact instDecidableAnd

/-- A 130-byte buffer whose payload window `[2, 64)` overlaps the reserved
bytes, first reserved byte `0`. -/
def overlapBuf1 : List Byte := mkBuf [0, 0] 2 62 gzipTag linuxTag (List.replicate 66 7)

/-- Same as `overlapBuf1` except the byte at the unchecked offset 2 is 1. -/
def overlapBuf2 : List Byte := mkBuf [1, 0] 2 62 gzipTag linuxTag (List.replicate 66 7)

/-- C10 (counterexample): two equal-length buffers that differ only at the
reserved offset 2 can both decode successfully yet produce different bodies,
because the payload window `[2, 64)` overlaps the reserved bytes.  This
refutes the claim that decode always yields identical bodies on buffers
differing only in unchecked regions. -/
theorem readInfo_reserved_leaks_into_body :
    agreesOutsideUnchecked overlapBuf1 overlapBuf2 ∧
    (Unpacker.mk false true).ReadInfo overlapBuf1 =
      .ok ⟨parseHeader overlapBuf1, slice overlapBuf1 2 62, Unpacker.mk false true⟩ ∧
    (Unpacker.mk false true).ReadInfo overlapBuf2 =
      .ok ⟨parseHeader overlapBuf2, slice overlapBuf2 2 62, Unpacker.mk false true⟩ ∧
    ¬ slice overlapBuf1 2 62 = slice overlapBuf2 2 62 := by decide

/-- Bytes at positions outside the unchecked offsets agree, in range or
out. -/
theorem getD_agree (b1 b2 : List Byte) (hlen : b1.length = b2.length)
    (hagree : ∀ i, i < b1.length → ¬ i ∈ uncheckedOffsets →
      b1.getD i 0 = b2.getD i 0)
    (j : Nat) (hj : ¬ j ∈ uncheckedOffsets) : b1.getD j 0 = b2.getD j 0 := by
  by_cases h : j < b1.length
  · exact hagree j h hj
  · rw [List.getD_eq_default b1 0 (by omega), List.getD_eq_default b2 0 (by omega)]

/-- Optional indexing agrees at positions outside the unchecked offsets. -/
theorem getElem?_agree (b1 b2 : List Byte) (hlen : b1.length = b2.length)
    (hagree : ∀ i, i < b1.length → ¬ i ∈ uncheckedOffsets →
      b1.getD i 0 = b2.getD i 0)
    (j : Nat) (hj : ¬ j ∈ uncheckedOffsets) : b1[j]? = b2[j]? := by
  by_cases h : j < b1.length
  · rw [List.getElem?_eq_getElem h, List.getElem?_eq_getElem (by omega)]
    have hD := getD_agree b1 b2 hlen hagree j hj
    rw [List.getD_eq_getElem b1 0 h, List.getD_eq_getElem b2 0 (by omega)] at hD
    rw [hD]
  · rw [List.getElem?_eq_none (by omega), List.getElem?_eq_none (by omega)]

/-- Slices over windows disjoint from the unchecked offsets agree. -/
theorem slice_agree (b1 b2 : List Byte) (hlen : b1.length = b2.length)
    (hagree : ∀ i, i < b1.length → ¬ i ∈ uncheckedOffsets →
      b1.getD i 0 = b2.getD i 0)
    (off n : Nat)
    (hran : ∀ j, j < off + n → off ≤ j → ¬ j ∈ uncheckedOffsets) :
    slice b1 off n = slice b2 off n := by
  apply List.ext_getElem?
  intro i
  rw [slice_getElem?, slice_getElem?]
  by_cases hi : i < n
  · rw [if_pos hi, if_pos hi]
    exact getElem?_agree b1 b2 hlen hagree (off + i)
      (hran (off + i) (by omega) (by omega))
  · rw [if_neg hi, if_neg hi]

/-- Little-endian 32-bit reads over windows disjoint from the unchecked
offsets agree. -/
theorem le32At_agree (b1 b2 : List Byte) (hlen : b1.length = b2.length)
    (hagree : ∀ i, i < b1.length → ¬ i ∈ uncheckedOffsets →
      b1.getD i 0 = b2.getD i 0)
    (off : Nat)
    (h0 : ¬ off ∈ uncheckedOffsets) (h1 : ¬ off + 1 ∈ uncheckedOffsets)
    (h2 : ¬ off + 2 ∈ uncheckedOffsets) (h3 : ¬ off + 3 ∈ uncheckedOffsets) :
    le32At b1 off = le32At b2 off := by
  unfold le32At
  rw [getD_agree b1 b2 hlen hagree off h0, getD_agree b1 b2 hlen hagree (off + 1) h1,
    getD_agree b1 b2 hlen hagree (off + 2) h2, getD_agree b1 b2 hlen hagree (off + 3) h3]

/-- All the header fields the validator and extractor consult agree on two
buffers that differ only inside the unchecked regions. -/
theorem parseHeader_checked_agree (b1 b2 : List Byte) (hlen : b1.length = b2.length)
    (hagree : ∀ i, i < b1.length → ¬ i ∈ uncheckedOffsets →
      b1.getD i 0 = b2.getD i 0) :
    (parseHeader b1).MSDOSMagic = (parseHeader b2).MSDOSMagic ∧
    (parseHeader b1).ZImg = (parseHeader b2).ZImg ∧
    (parseHeader b1).PayloadOffset = (parseHeader b2).PayloadOffset ∧
    (parseHeader b1).PayloadSize = (parseHeader b2).PayloadSize ∧
    (parseHeader b1).CompressionType = (parseHeader b2).CompressionType ∧
    (parseHeader b1).LinuxMagic = (parseHeader b2).LinuxMagic := by
  refine ⟨slice_agree b1 b2 hlen hagree 0 2 (by decide),
    slice_agree b1 b2 hlen hagree 4 4 (by decide),
    le32At_agree b1 b2 hlen hagree 8 (by decide) (by decide) (by decide) (by decide),
    le32At_agree b1 b2 hlen hagree 12 (by decide) (by decide) (by decide) (by decide),
    slice_agree b1 b2 hlen hagree 24 32 (by decide),
    slice_agree b1 b2 hlen hagree 56 4 (by decide)⟩

/-- On buffers differing only in unchecked regions, a decode failure of the
first buffer is the identical failure of the second. -/
theorem readInfo_error_agree (u : Unpacker) (b1 b2 : List Byte)
    (hlen : b1.length = b2.length)
    (hagree : ∀ i, i < b1.length → ¬ i ∈ uncheckedOffsets →
      b1.getD i 0 = b2.getD i 0)
    (e : GoError) (h1 : u.ReadInfo b1 = .error e) : u.ReadInfo b2 = .error e := by
  obtain ⟨hmz, hzi, hoff, hsz, hct, hlx⟩ := parseHeader_checked_agree b1 b2 hlen hagree
  simp only [Unpacker.ReadInfo] at h1 ⊢
  rw [← hlen, ← hmz, ← hzi, ← hoff, ← hsz, ← hlx]
  repeat' split at h1
  all_goals simp_all
  all_goals repeat rw [if_neg (by omega)]

/-- On buffers differing only in unchecked regions, a decode success of the
first buffer is a success of the second, whose header is the second buffer's
parse and whose body is the corresponding window of the second buffer. -/
theorem readInfo_ok_agree (u : Unpacker) (b1 b2 : List Byte)
    (hlen : b1.length = b2.length)
    (hagree : ∀ i, i < b1.length → ¬ i ∈ uncheckedOffsets →
      b1.getD i 0 = b2.getD i 0)
    (i1 : BootInfo) (h1 : u.ReadInfo b1 = .ok i1) :
    u.ReadInfo b2 = .ok ⟨parseHeader b2,
      if u.ParseBody = true then
        slice b2 (parseHeader b1).PayloadOffset (parseHeader b1).PayloadSize
      else [], u⟩ := by
  obtain ⟨hmz, hzi, hoff, hsz, hct, hlx⟩ := parseHeader_checked_agree b1 b2 hlen hagree
  simp only [Unpacker.ReadInfo] at h1 ⊢
  rw [← hlen, ← hmz, ← hzi, ← hoff, ← hsz, ← hlx]
  repeat' split at h1
  all_goals simp_all
  all_goals repeat rw [if_neg (by omega)]

/-- C10 (amended): decode never branches on the unchecked header regions —
for any two equal-length buffers that differ only at the reserved bytes
(offsets 2-3 and 16-23) and/or the PE-header-offset bytes (offsets 60-63)
and the same options, a failure of one is the identical failure of the
other, and a success of one is a success of the other with the same payload
offset and size and with each body the corresponding byte range of its own
buffer; the bodies coincide whenever the payload range avoids the unchecked
offsets (by the counterexample they can differ when it overlaps them). -/
theorem readInfo_unchecked_independence (u : Unpacker) (b1 b2 : List Byte)
    (hlen : b1.length = b2.length)
    (hagree : ∀ i, i < b1.length → ¬ i ∈ uncheckedOffsets →
      b1.getD i 0 = b2.getD i 0) :
    (∀ e, u.ReadInfo b1 = .error e → u.ReadInfo b2 = .error e) ∧
    (∀ i1, u.ReadInfo b1 = .ok i1 → ∃ i2, u.ReadInfo b2 = .ok i2 ∧
      i2.Header.PayloadOffset = i1.Header.PayloadOffset ∧
      i2.Header.PayloadSize = i1.Header.PayloadSize ∧
      ((∀ j, j < i1.Header.PayloadOffset + i1.Header.PayloadSize →
          i1.Header.PayloadOffset ≤ j → ¬ j ∈ uncheckedOffsets) →
        i2.body = i1.body)) := by
  obtain ⟨hmz, hzi, hoff, hsz, hct, hlx⟩ := parseHeader_checked_agree b1 b2 hlen hagree
  refine ⟨readInfo_error_agree u b1 b2 hlen hagree, fun i1 h1 => ?_⟩
  obtain ⟨hh, hu, himpT, himpF⟩ := readInfo_ok_inversion u b1 i1 h1
  refine ⟨_, readInfo_ok_agree u b1 b2 hlen hagree i1 h1, ?_, ?_, ?_⟩
  · dsimp only
    rw [hh, hoff]
  · dsimp only
    rw [hh, hsz]
  · intro hran
    dsimp only
    cases hp : u.ParseBody with
    | true =>
      rw [if_pos rfl]
      obtain ⟨hb, hbody⟩ := himpT hp
      rw [hbody, hh]
      exact (slice_agree b1 b2 hlen hagree _ _ (by rw [← hh]; exact hran)).symm
    | false =>
      rw [if_neg (by simp [hp])]
      exact (himpF hp).symm

/-- Witness for C10's amended theorem: two 10-byte buffers differing only at
the reserved offset 2 both fail with the same truncated-input error. -/
theorem readInfo_unchecked_independence_witness :
    (Unpacker.mk false false).ReadInfo [0, 0, 5, 0, 0, 0, 0, 0, 0, 0] =
      .error GoError.unexpectedEOF :=
  (readInfo_unchecked_independence (Unpacker.mk false false)
      [0, 0, 9, 0, 0, 0, 0, 0, 0, 0] [0, 0, 5, 0, 0, 0, 0, 0, 0, 0]
      (by decide) (by decide)).1
    GoError.unexpectedEOF (by decide)

end Toobz
